import Mathlib

/-!
Verification of the ara (ARA Records Ansible) excerpt: the relational data
model of `ara/api/models.py` and the retention ("prune") subsystem exercised
by `ara/api/tests/tests_prune.py`.

Time is modelled as an integer number of seconds; binary blobs as strings.
Django rows become Lean structures carrying the declared fields, and the
store is a structure of row lists.  Cascade semantics follow the
`on_delete` declarations of `models.py`.
-/

set_option autoImplicit false

namespace Ara

/-- Seconds in a day, used to turn a day-based age threshold into seconds. -/
def secondsPerDay : Int := 86400

/-- The `FileContent` row (`models.py`): content-addressed blob keyed by sha1. -/
structure FileContent where
  id : Nat
  created : Int
  updated : Int
  sha1 : String
  contents : String
  deriving Repr, DecidableEq

/-- The `File` row (`models.py`): a path plus a foreign key to `FileContent`
(`on_delete=CASCADE`). -/
structure File where
  id : Nat
  created : Int
  updated : Int
  path : String
  content : Nat
  deriving Repr, DecidableEq

/-- The `Label` row (`models.py`). -/
structure Label where
  id : Nat
  created : Int
  updated : Int
  name : String
  description : String
  deriving Repr, DecidableEq

/-- The `Playbook` row (`models.py`): inherits `Duration`, so it carries
`started`/`ended`; `file` is a foreign key to `File`, `files` and `labels`
are many-to-many id sets. -/
structure Playbook where
  id : Nat
  created : Int
  updated : Int
  started : Int
  ended : Option Int
  ansible_version : String
  completed : Bool
  parameters : String
  file : Nat
  files : List Nat
  labels : List Nat
  deriving Repr, DecidableEq

/-- The `Record` row (`models.py`): key/value scoped to one `Playbook`
(`on_delete=CASCADE`), with `unique_together = (key, playbook)`. -/
structure Record where
  id : Nat
  created : Int
  updated : Int
  key : String
  value : Option String
  type : String
  playbook : Nat
  deriving Repr, DecidableEq

/-- The `Play` row (`models.py`): child of `Playbook` (`on_delete=CASCADE`). -/
structure Play where
  id : Nat
  created : Int
  updated : Int
  started : Int
  ended : Option Int
  name : Option String
  completed : Bool
  playbook : Nat
  deriving Repr, DecidableEq

/-- The `Task` row (`models.py`): child of a `Play` and of a `File`
(both `on_delete=CASCADE`). -/
structure Task where
  id : Nat
  created : Int
  updated : Int
  started : Int
  ended : Option Int
  name : Option String
  action : String
  lineno : Int
  tags : String
  handler : Bool
  completed : Bool
  play : Nat
  file : Nat
  deriving Repr, DecidableEq

/-- The `Host` row (`models.py`): per-play host statistics; note
`play = models.ForeignKey(Play, on_delete=models.DO_NOTHING)`, so deleting
a `Play` takes no action on its `Host` rows. -/
structure Host where
  id : Nat
  created : Int
  updated : Int
  name : String
  facts : String
  changed : Int
  failed : Int
  ok : Int
  skipped : Int
  unreachable : Int
  play : Nat
  deriving Repr, DecidableEq

/-- The `Result` row (`models.py`): child of a `Host` and of a `Task`
(both `on_delete=CASCADE`); `status` is a string constrained by the
`STATUS` choices. -/
structure Result where
  id : Nat
  created : Int
  updated : Int
  started : Int
  ended : Option Int
  status : String
  content : String
  host : Nat
  task : Nat
  deriving Repr, DecidableEq

/-- The `STATUS` choices of `Result` in `models.py` (value component). -/
def statusChoices : List String :=
  ["ok", "failed", "skipped", "unreachable", "changed", "ignored", "unknown"]

/-- The relational store: one list of rows per table of `models.py`. -/
structure Store where
  file_contents : List FileContent
  files : List File
  labels : List Label
  playbooks : List Playbook
  records : List Record
  plays : List Play
  tasks : List Task
  hosts : List Host
  results : List Result
  deriving Repr, DecidableEq

/-- The empty store. -/
def Store.empty : Store :=
  ⟨[], [], [], [], [], [], [], [], []⟩

/-- Delete a `Play` row by id, following the `on_delete` declarations of
`models.py`: its `Task` rows cascade (`Task.play` is CASCADE), the
`Result` rows of those tasks cascade (`Result.task` is CASCADE), and its
`Host` rows are left untouched (`Host.play` is DO_NOTHING). -/
def deletePlay (s : Store) (plid : Nat) : Store :=
  let deletedTasks := (s.tasks.filter (fun t => t.play == plid)).map (fun t => t.id)
  { s with
    plays := s.plays.filter (fun pl => pl.id != plid)
    tasks := s.tasks.filter (fun t => t.play != plid)
    results := s.results.filter (fun r => !(deletedTasks.contains r.task)) }

/-- Delete a `Playbook` row by id, following the `on_delete` declarations
of `models.py`: its `Record` rows and `Play` rows cascade
(`Record.playbook` and `Play.playbook` are CASCADE); the `Task` rows of
those plays cascade (`Task.play` is CASCADE) and the `Result` rows of
those tasks cascade (`Result.task` is CASCADE); `Host` rows do not cascade
because `Host.play` is DO_NOTHING. -/
def deletePlaybook (s : Store) (pid : Nat) : Store :=
  let deletedPlays := (s.plays.filter (fun pl => pl.playbook == pid)).map (fun pl => pl.id)
  let deletedTasks := (s.tasks.filter (fun t => deletedPlays.contains t.play)).map (fun t => t.id)
  { s with
    playbooks := s.playbooks.filter (fun p => p.id != pid)
    records := s.records.filter (fun r => r.playbook != pid)
    plays := s.plays.filter (fun pl => pl.playbook != pid)
    tasks := s.tasks.filter (fun t => !(deletedPlays.contains t.play))
    results := s.results.filter (fun r => !(deletedTasks.contains r.task)) }

/-- Errors surfaced by a client to the prune command. -/
inductive ClientError
  | authFailure
  | notFound
  deriving Repr, DecidableEq

/-- Modelled from the spec: the client abstraction of §4.2 (the
`ara.clients` package is not part of this excerpt).  Both backends are
polymorphic over the capability set: list the playbooks matching a
started-before filter, and delete a playbook by identifier. -/
structure Client (W : Type) where
  list : W → Int → Except ClientError (List Playbook)
  delete : W → Nat → Except ClientError W

/-- The playbooks of the store whose `started` timestamp is strictly
earlier than the cutoff ("started timestamp earlier than now − threshold"). -/
def playbooksOlderThan (s : Store) (cutoff : Int) : List Playbook :=
  s.playbooks.filter (fun p => decide (p.started < cutoff))

/-- Modelled from the spec: the local/offline client (§4.2, code not in this
excerpt) operates directly against the relational store in the same process. -/
def offlineClient : Client Store where
  list s cutoff := .ok (playbooksOlderThan s cutoff)
  delete s pid := .ok (deletePlaybook s pid)

/-- A remote instance exposing the same entity model over HTTP: its store,
whether reads and writes require a login, and the accepted credentials. -/
structure Server where
  store : Store
  read_login_required : Bool
  write_login_required : Bool
  users : List (String × String)
  deriving Repr, DecidableEq

/-- Whether the supplied credentials match a user of the remote instance;
missing credentials are never accepted. -/
def credentialsAccepted (srv : Server) (creds : Option (String × String)) : Bool :=
  match creds with
  | none => false
  | some c => srv.users.contains c

/-- Modelled from the spec: the HTTP client listing call (§4.2, code not in
this excerpt).  When the remote requires a login for reads and the
credentials are missing or wrong, the failure is surfaced as a fatal client
error, never as a silently-empty result. -/
def httpList (creds : Option (String × String)) (srv : Server) (cutoff : Int) :
    Except ClientError (List Playbook) :=
  if srv.read_login_required && !(credentialsAccepted srv creds) then
    .error .authFailure
  else
    .ok (playbooksOlderThan srv.store cutoff)

/-- Modelled from the spec: the HTTP client deletion call (§4.2, code not in
this excerpt).  Authentication is enforced when the remote requires a login
for writes, and deleting an unknown playbook id is a client error. -/
def httpDelete (creds : Option (String × String)) (srv : Server) (pid : Nat) :
    Except ClientError Server :=
  if srv.write_login_required && !(credentialsAccepted srv creds) then
    .error .authFailure
  else if srv.store.playbooks.any (fun p => p.id == pid) then
    .ok { srv with store := deletePlaybook srv.store pid }
  else
    .error .notFound

/-- The remote/HTTP client, parameterised by the optional credentials. -/
def httpClient (creds : Option (String × String)) : Client Server where
  list := httpList creds
  delete := httpDelete creds

/-- One phase of the prune command: delete each listed playbook id in
sequence through the client, counting the deletions; a client failure
aborts the sweep. -/
def deleteAll {W : Type} (c : Client W) (w : W) : List Nat → Except ClientError (W × Nat)
  | [] => .ok (w, 0)
  | pid :: rest =>
    match c.delete w pid with
    | .error e => .error e
    | .ok w2 =>
      match deleteAll c w2 rest with
      | .error e => .error e
      | .ok (w3, n) => .ok (w3, n + 1)

/-- A prune error: a client-layer failure propagated up as fatal
(the process exits with a non-zero status). -/
inductive PruneError
  | clientFailure (e : ClientError)
  deriving Repr, DecidableEq

/-- What a successful prune invocation reports: the match count, the
deleted count and the informational log lines. -/
structure PruneReport where
  found : Nat
  deleted : Nat
  logs : List String
  deriving Repr, DecidableEq

/-- Modelled from the spec: the `prune` management command (§4.1; the
command module `ara.api.management.commands.prune` is not in this excerpt).
It computes the cutoff as now minus the day threshold, lists the matching
playbooks through the active client, reports the count, and deletes them
(cascading) only when `confirm` is set; a client failure terminates the
command with an error and no further deletions. -/
def prune {W : Type} (c : Client W) (confirm : Bool) (days : Nat) (now : Int)
    (w : W) : Except PruneError (W × PruneReport) :=
  let cutoff := now - (days : Int) * secondsPerDay
  match c.list w cutoff with
  | .error e => .error (.clientFailure e)
  | .ok matching =>
    let found := matching.length
    let header := "Found " ++ toString found ++ " playbooks matching query"
    if !confirm then
      .ok (w, { found := found, deleted := 0,
                logs := [header,
                         "--confirm was not specified, no playbooks will be deleted",
                         "0 playbooks deleted"] })
    else
      match deleteAll c w (matching.map (fun p => p.id)) with
      | .error e => .error (.clientFailure e)
      | .ok (w2, n) =>
        .ok (w2, { found := found, deleted := n,
                   logs := [header, toString n ++ " playbooks deleted"] })

/-- The world (store or server) observable after a prune invocation:
unchanged when the command terminated with an error. -/
def pruneFinal {W : Type} (c : Client W) (confirm : Bool) (days : Nat) (now : Int)
    (w : W) : W :=
  match prune c confirm days now w with
  | .error _ => w
  | .ok (w2, _) => w2

/-- Create a `Playbook` row with the field defaults declared in `models.py`:
`started` defaults to the current time (`default=timezone.now`), `ended`
defaults to absent (`null=True`), `completed` defaults to `False`, and the
`created`/`updated` timestamps of `Base` are set automatically. -/
def newPlaybook (now : Int) (startedArg : Option Int) (id : Nat)
    (ansible_version : String) (parameters : String) (file : Nat) : Playbook :=
  { id := id, created := now, updated := now,
    started := startedArg.getD now, ended := none,
    ansible_version := ansible_version, completed := false,
    parameters := parameters, file := file, files := [], labels := [] }

/-- Create a `Play` row with the field defaults declared in `models.py`. -/
def newPlay (now : Int) (startedArg : Option Int) (id : Nat)
    (name : Option String) (playbook : Nat) : Play :=
  { id := id, created := now, updated := now,
    started := startedArg.getD now, ended := none,
    name := name, completed := false, playbook := playbook }

/-- Create a `Task` row with the field defaults declared in `models.py`
(`action`, `lineno`, `tags` and `handler` have no default and are given). -/
def newTask (now : Int) (startedArg : Option Int) (id : Nat)
    (name : Option String) (action : String) (lineno : Int) (tags : String)
    (handler : Bool) (play : Nat) (file : Nat) : Task :=
  { id := id, created := now, updated := now,
    started := startedArg.getD now, ended := none,
    name := name, action := action, lineno := lineno, tags := tags,
    handler := handler, completed := false, play := play, file := file }

/-- Create a `Result` row with the field defaults declared in `models.py`:
`status` defaults to `UNKNOWN`. -/
def newResult (now : Int) (startedArg : Option Int) (id : Nat)
    (statusArg : Option String) (content : String) (host : Nat) (task : Nat) : Result :=
  { id := id, created := now, updated := now,
    started := startedArg.getD now, ended := none,
    status := statusArg.getD "unknown", content := content,
    host := host, task := task }

/-- Modelled from the spec: the write-layer validation of `Result.status`
(the REST serializer is not in this excerpt) enforces the `choices=STATUS`
declaration of `models.py`: a row whose status lies outside the enumeration
is rejected instead of stored. -/
def addResult (s : Store) (r : Result) : Option Store :=
  if statusChoices.contains r.status then
    some { s with results := s.results ++ [r] }
  else
    none

/-- The in-place update applied when re-recording: a row carrying the same
(key, playbook) pair receives the new value, type and update timestamp; any
other row is untouched. -/
def overwriteRecord (r x : Record) : Record :=
  if x.key == r.key && x.playbook == r.playbook then
    { x with value := r.value, type := r.type, updated := r.updated }
  else x

/-- Modelled from the spec: re-recording the same key for a playbook must
overwrite the existing value, not duplicate the row (§3; the write path via
the ara_record module is not in this excerpt), honouring the
`unique_together = (key, playbook)` constraint declared in `models.py`. -/
def saveRecord (s : Store) (r : Record) : Store :=
  if s.records.any (fun x => x.key == r.key && x.playbook == r.playbook) then
    { s with records := s.records.map (overwriteRecord r) }
  else
    { s with records := s.records ++ [r] }

/-- The number of `Record` rows carrying a given (key, playbook) pair. -/
def countRecords (s : Store) (k : String) (pb : Nat) : Nat :=
  (s.records.filter (fun x => x.key == k && x.playbook == pb)).length

/-- The (key, playbook) uniqueness invariant of the records table
(`unique_together` in `models.py`): no two rows share the pair. -/
def recordsUnique (s : Store) : Prop :=
  s.records.Pairwise (fun a b => a.key ≠ b.key ∨ a.playbook ≠ b.playbook)

/-- Primary-key uniqueness of the playbooks table (`id` is the
auto-incrementing primary key inherited from `Base`). -/
def playbookIdsNodup (s : Store) : Prop :=
  (s.playbooks.map (fun p => p.id)).Nodup

/-- A sample playbook row used to evaluate the theorems on concrete data. -/
def samplePlaybook (id : Nat) (started : Int) : Playbook :=
  { id := id, created := started, updated := started, started := started,
    ended := none, ansible_version := "2.8", completed := true,
    parameters := "args", file := 0, files := [], labels := [] }

/-- A sample play row belonging to playbook 1. -/
def samplePlay : Play :=
  { id := 1, created := 0, updated := 0, started := 0, ended := none,
    name := some "p", completed := true, playbook := 1 }

/-- A sample host row belonging to play 1. -/
def sampleHost : Host :=
  { id := 1, created := 0, updated := 0, name := "h", facts := "f",
    changed := 0, failed := 0, ok := 1, skipped := 0, unreachable := 0,
    play := 1 }

/-- A sample task row belonging to play 1. -/
def sampleTask : Task :=
  { id := 1, created := 0, updated := 0, started := 0, ended := none,
    name := some "t", action := "setup", lineno := 1, tags := "",
    handler := false, completed := true, play := 1, file := 0 }

/-- A sample result row belonging to host 1 and task 1. -/
def sampleResult : Result :=
  { id := 1, created := 0, updated := 0, started := 0, ended := none,
    status := "ok", content := "c", host := 1, task := 1 }

/-- A sample record row belonging to playbook 1. -/
def sampleRecord : Record :=
  { id := 1, created := 0, updated := 0, key := "k", value := some "v",
    type := "text", playbook := 1 }

/-- A second sample record re-recording the key of `sampleRecord` for the
same playbook with a different value. -/
def sampleRecord2 : Record :=
  { id := 2, created := 1, updated := 1, key := "k", value := some "v2",
    type := "text", playbook := 1 }

/-- A store holding just the sample record. -/
def recordStore : Store :=
  { Store.empty with records := [sampleRecord] }

/-- A sample store holding one playbook with its play, host, task, result
and record. -/
def sampleStore : Store :=
  { file_contents := [], files := [], labels := [],
    playbooks := [samplePlaybook 1 0], records := [sampleRecord],
    plays := [samplePlay], tasks := [sampleTask], hosts := [sampleHost],
    results := [sampleResult] }

/-! ## Helper lemmas about the prune command -/

/-- A failing listing call makes the whole prune invocation fail, before any
deletion is attempted. -/
theorem prune_eq_of_list_error {W : Type} (c : Client W) (confirm : Bool)
    (days : Nat) (now : Int) (w : W) (e : ClientError)
    (h : c.list w (now - (days : Int) * secondsPerDay) = .error e) :
    prune c confirm days now w = .error (.clientFailure e) := by
  simp only [prune, h]

/-- A successful listing call without `--confirm` yields the dry-run report. -/
theorem prune_eq_of_list_ok_dry {W : Type} (c : Client W)
    (days : Nat) (now : Int) (w : W) (matching : List Playbook)
    (h : c.list w (now - (days : Int) * secondsPerDay) = .ok matching) :
    prune c false days now w =
      .ok (w, { found := matching.length, deleted := 0,
                logs := ["Found " ++ toString matching.length ++ " playbooks matching query",
                         "--confirm was not specified, no playbooks will be deleted",
                         "0 playbooks deleted"] }) := by
  simp only [prune, h, Bool.not_false, if_true]

/-- A successful listing call with `--confirm` hands the matching ids to the
deletion sweep and reports its count. -/
theorem prune_eq_of_list_ok_confirm {W : Type} (c : Client W)
    (days : Nat) (now : Int) (w w2 : W) (matching : List Playbook) (n : Nat)
    (h : c.list w (now - (days : Int) * secondsPerDay) = .ok matching)
    (hdel : deleteAll c w (matching.map (fun p => p.id)) = .ok (w2, n)) :
    prune c true days now w =
      .ok (w2, { found := matching.length, deleted := n,
                 logs := ["Found " ++ toString matching.length ++ " playbooks matching query",
                          toString n ++ " playbooks deleted"] }) := by
  simp only [prune, h, hdel, Bool.not_true, Bool.false_eq_true, if_false]

/-! ## C1: prune without `--confirm` is a dry run -/

/-- C1: for every invocation of the prune command without the `--confirm`
flag whose listing call succeeds, regardless of how many playbooks match the
age threshold, the world is returned unchanged (zero playbooks deleted), the
report carries a zero deleted count, the command logs that nothing will be
deleted, and the invocation exits successfully. -/
theorem prune_without_confirm_is_dry_run {W : Type} (c : Client W) (w : W)
    (days : Nat) (now : Int) (matching : List Playbook)
    (h : c.list w (now - (days : Int) * secondsPerDay) = .ok matching) :
    (∀ (W2 : Type) (c2 : Client W2) (w2 : W2), pruneFinal c2 false days now w2 = w2) ∧
    ∃ rep : PruneReport,
      prune c false days now w = .ok (w, rep) ∧ rep.deleted = 0 ∧
      "--confirm was not specified, no playbooks will be deleted" ∈ rep.logs ∧
      "0 playbooks deleted" ∈ rep.logs := by
  constructor
  · intro W2 c2 w2
    unfold pruneFinal
    cases hl : c2.list w2 (now - (days : Int) * secondsPerDay) with
    | error e => rw [prune_eq_of_list_error c2 false days now w2 e hl]
    | ok m => rw [prune_eq_of_list_ok_dry c2 days now w2 m hl]
  · refine ⟨_, prune_eq_of_list_ok_dry c days now w matching h, rfl, ?_, ?_⟩ <;> simp

/-- Witness for C1: the offline client on the sample store, with a 60-day
threshold at time 0. -/
theorem prune_without_confirm_is_dry_run_witness :
    pruneFinal offlineClient false 60 0 sampleStore = sampleStore ∧
    ∃ rep : PruneReport,
      prune offlineClient false 60 0 sampleStore = .ok (sampleStore, rep) ∧
      rep.deleted = 0 ∧
      "--confirm was not specified, no playbooks will be deleted" ∈ rep.logs ∧
      "0 playbooks deleted" ∈ rep.logs :=
  ⟨(prune_without_confirm_is_dry_run offlineClient sampleStore 60 0
      (playbooksOlderThan sampleStore (0 - (60 : Int) * secondsPerDay)) rfl).1
      Store offlineClient sampleStore,
   (prune_without_confirm_is_dry_run offlineClient sampleStore 60 0
      (playbooksOlderThan sampleStore (0 - (60 : Int) * secondsPerDay)) rfl).2⟩

/-! ## C2: authentication failure is fatal and deletes nothing -/

/-- A store holding one playbook old enough to match a 60-day threshold at
time 0 and one recent playbook. -/
def pruneStore : Store :=
  { Store.empty with playbooks := [samplePlaybook 1 (-10000000), samplePlaybook 2 100] }

/-- A remote instance that requires a login for reads and writes and accepts
a single user. -/
def lockedServer : Server :=
  { store := pruneStore, read_login_required := true,
    write_login_required := true, users := [("prune", "password")] }

/-- C2: against a login-required remote endpoint, when the credentials are
missing or incorrect, the prune command terminates with a non-zero status
(an error) and no playbook is deleted: the server, and in particular its
playbook count, is unchanged. -/
theorem prune_http_auth_failure_fatal (srv : Server) (creds : Option (String × String))
    (confirm : Bool) (days : Nat) (now : Int)
    (hr : srv.read_login_required = true)
    (hc : credentialsAccepted srv creds = false) :
    prune (httpClient creds) confirm days now srv =
      .error (.clientFailure .authFailure) ∧
    pruneFinal (httpClient creds) confirm days now srv = srv ∧
    (pruneFinal (httpClient creds) confirm days now srv).store.playbooks.length =
      srv.store.playbooks.length := by
  have hl : (httpClient creds).list srv (now - (days : Int) * secondsPerDay) =
      .error .authFailure := by
    simp [httpClient, httpList, hr, hc]
  have hp := prune_eq_of_list_error (httpClient creds) confirm days now srv .authFailure hl
  refine ⟨hp, ?_, ?_⟩ <;> unfold pruneFinal <;> rw [hp]

/-- Witness for C2: the locked server with a wrong password, a matching old
playbook in store, a 60-day threshold at time 0. -/
theorem prune_http_auth_failure_fatal_witness :
    prune (httpClient (some ("prune", "somethingelse"))) true 60 0 lockedServer =
      .error (.clientFailure .authFailure) ∧
    pruneFinal (httpClient (some ("prune", "somethingelse"))) true 60 0 lockedServer =
      lockedServer :=
  ⟨(prune_http_auth_failure_fatal lockedServer (some ("prune", "somethingelse"))
      true 60 0 rfl (by decide)).1,
   (prune_http_auth_failure_fatal lockedServer (some ("prune", "somethingelse"))
      true 60 0 rfl (by decide)).2.1⟩

/-! ## C3: prune with `--confirm` deletes exactly the matching playbooks -/

/-- Sweeping a list of ids through the offline client always succeeds,
counts every id, and leaves exactly the playbooks whose id was not listed. -/
theorem deleteAll_offline (ids : List Nat) (s : Store) :
    ∃ s' : Store, deleteAll offlineClient s ids = .ok (s', ids.length) ∧
      s'.playbooks = s.playbooks.filter (fun p => !(ids.contains p.id)) := by
  induction ids generalizing s with
  | nil => exact ⟨s, rfl, by simp⟩
  | cons pid rest ih =>
    obtain ⟨s', hrun, hpb⟩ := ih (deletePlaybook s pid)
    refine ⟨s', ?_, ?_⟩
    · rw [deleteAll]
      rw [show offlineClient.delete s pid = Except.ok (deletePlaybook s pid) from rfl]
      simp only [hrun, List.length_cons]
    · rw [hpb]
      show ((s.playbooks.filter fun p => p.id != pid).filter fun p =>
        !(rest.contains p.id)) = _
      rw [List.filter_filter]
      refine List.filter_congr ?_
      intro x _
      by_cases hxp : x.id = pid <;> simp [List.contains_cons, hxp, Bool.and_comm]

/-- Under primary-key uniqueness, an id drawn from the playbooks table lies
among the ids of the rows satisfying `q` exactly when its row satisfies `q`. -/
theorem contains_matching_ids (s : Store) (q : Playbook → Bool)
    (h : playbookIdsNodup s) (p : Playbook) (hp : p ∈ s.playbooks) :
    ((s.playbooks.filter q).map (fun x => x.id)).contains p.id = q p := by
  by_cases hq : q p = true
  · have hmem : p.id ∈ (s.playbooks.filter q).map (fun x => x.id) :=
      List.mem_map.mpr ⟨p, List.mem_filter.mpr ⟨hp, hq⟩, rfl⟩
    simp [hmem, hq]
  · rw [Bool.eq_false_iff.mpr hq, ← Bool.not_eq_true]
    intro hcon
    rw [List.contains_iff_exists_mem_beq] at hcon
    obtain ⟨j, hj, hbeq⟩ := hcon
    obtain ⟨x, hxf, hxid⟩ := List.mem_map.mp hj
    obtain ⟨hxmem, hxq⟩ := List.mem_filter.mp hxf
    have : p.id = x.id := by rw [hxid]; exact eq_of_beq hbeq
    have hpx : x = p := List.inj_on_of_nodup_map h hxmem hp this.symm
    rw [hpx] at hxq
    exact hq hxq

/-- C3: with `--confirm` and all playbook ids distinct (the primary-key
invariant), if N playbooks match the age threshold then the command
succeeds, reports N found and N deleted, logs the deleted count, and the
store afterwards holds exactly (original count − N) playbooks. -/
theorem prune_confirm_deletes_matching (s : Store) (days : Nat) (now : Int)
    (h : playbookIdsNodup s) :
    ∃ (s' : Store) (rep : PruneReport),
      prune offlineClient true days now s = .ok (s', rep) ∧
      rep.found = (playbooksOlderThan s (now - (days : Int) * secondsPerDay)).length ∧
      rep.deleted = rep.found ∧
      s'.playbooks.length = s.playbooks.length -
        (playbooksOlderThan s (now - (days : Int) * secondsPerDay)).length ∧
      (toString rep.deleted ++ " playbooks deleted") ∈ rep.logs := by
  obtain ⟨s', hrun, hpb⟩ := deleteAll_offline
    ((playbooksOlderThan s (now - (days : Int) * secondsPerDay)).map (fun p => p.id)) s
  rw [List.length_map] at hrun
  refine ⟨s', _, prune_eq_of_list_ok_confirm offlineClient days now s s'
    (playbooksOlderThan s (now - (days : Int) * secondsPerDay))
    (playbooksOlderThan s (now - (days : Int) * secondsPerDay)).length rfl hrun,
    rfl, rfl, ?_, by simp⟩
  rw [hpb]
  have hcong : s.playbooks.filter (fun p =>
      !(((playbooksOlderThan s (now - (days : Int) * secondsPerDay)).map
          (fun p => p.id)).contains p.id)) =
      s.playbooks.filter (fun p =>
        !(decide (p.started < now - (days : Int) * secondsPerDay))) := by
    refine List.filter_congr ?_
    intro x hx
    have hc := contains_matching_ids s
      (fun p => decide (p.started < now - (days : Int) * secondsPerDay)) h x hx
    rw [show playbooksOlderThan s (now - (days : Int) * secondsPerDay) =
      s.playbooks.filter (fun p => decide (p.started < now - (days : Int) * secondsPerDay))
      from rfl]
    rw [hc]
  rw [hcong]
  have htot := List.length_eq_length_filter_add (l := s.playbooks)
    (fun p => decide (p.started < now - (days : Int) * secondsPerDay))
  have hlen : (playbooksOlderThan s (now - (days : Int) * secondsPerDay)).length =
      (s.playbooks.filter
        (fun p => decide (p.started < now - (days : Int) * secondsPerDay))).length := rfl
  omega

/-- Witness for C3: the sample prune store (one old playbook, one recent)
with a 60-day threshold at time 0. -/
theorem prune_confirm_deletes_matching_witness :
    playbookIdsNodup pruneStore ∧
    ∃ (s' : Store) (rep : PruneReport),
      prune offlineClient true 60 0 pruneStore = .ok (s', rep) ∧
      rep.found = (playbooksOlderThan pruneStore (0 - (60 : Int) * secondsPerDay)).length ∧
      rep.deleted = rep.found ∧
      s'.playbooks.length = pruneStore.playbooks.length -
        (playbooksOlderThan pruneStore (0 - (60 : Int) * secondsPerDay)).length ∧
      (toString rep.deleted ++ " playbooks deleted") ∈ rep.logs :=
  ⟨by unfold playbookIdsNodup; decide,
   prune_confirm_deletes_matching pruneStore 60 0 (by unfold playbookIdsNodup; decide)⟩

/-! ## C4: the prune filter is "started strictly earlier than now − threshold" -/

/-- A store holding a playbook started exactly 60 days before time 0 and a
playbook started at time 1. -/
def boundaryStore : Store :=
  { Store.empty with
    playbooks := [samplePlaybook 1 (0 - 60 * secondsPerDay), samplePlaybook 2 1] }

/-- C4: the prune filter matches exactly the playbooks whose `started`
timestamp is strictly earlier than the cutoff (now minus the threshold); a
playbook started at the invocation's current time never matches a 60-day
threshold, and a playbook started 60 days before a reference time that
precedes the invocation time does match it. -/
theorem prune_filter_strictly_earlier :
    (∀ (s : Store) (cutoff : Int) (p : Playbook),
        p ∈ playbooksOlderThan s cutoff ↔ p ∈ s.playbooks ∧ p.started < cutoff) ∧
    (∀ (s : Store) (t1 : Int) (p : Playbook),
        p.started = t1 → p ∉ playbooksOlderThan s (t1 - 60 * secondsPerDay)) ∧
    (∀ (s : Store) (t0 t1 : Int) (p : Playbook),
        t0 < t1 → p ∈ s.playbooks → p.started = t0 - 60 * secondsPerDay →
        p ∈ playbooksOlderThan s (t1 - 60 * secondsPerDay)) := by
  refine ⟨?_, ?_, ?_⟩
  · intro s cutoff p
    simp [playbooksOlderThan, List.mem_filter]
  · intro s t1 p hp hmem
    rw [playbooksOlderThan, List.mem_filter] at hmem
    have hlt := of_decide_eq_true hmem.2
    rw [hp] at hlt
    have hpos : (0 : Int) < 60 * secondsPerDay := by norm_num [secondsPerDay]
    linarith
  · intro s t0 t1 p h01 hmem hst
    rw [playbooksOlderThan, List.mem_filter]
    refine ⟨hmem, decide_eq_true ?_⟩
    rw [hst]
    linarith

/-- Witness for C4: in the boundary store, the playbook started 60 days
before time 0 matches the 60-day threshold at time 1, while the playbook
started at time 1 does not. -/
theorem prune_filter_strictly_earlier_witness :
    samplePlaybook 1 (0 - 60 * secondsPerDay) ∈
      playbooksOlderThan boundaryStore (1 - 60 * secondsPerDay) ∧
    samplePlaybook 2 1 ∉ playbooksOlderThan boundaryStore (1 - 60 * secondsPerDay) :=
  ⟨prune_filter_strictly_earlier.2.2 boundaryStore 0 1
      (samplePlaybook 1 (0 - 60 * secondsPerDay)) (by decide)
      (by simp [boundaryStore]) rfl,
   prune_filter_strictly_earlier.2.1 boundaryStore 1 (samplePlaybook 2 1) rfl⟩

/-! ## C6: what a Playbook delete cascades to -/

/-- Counterexample to C6 as stated: deleting playbook 1 of the sample store
leaves the host of its play in the hosts table (because `Host.play` is
declared `on_delete=DO_NOTHING` in `models.py`), so not every Host reachable
from the deleted plays is removed. -/
theorem deletePlaybook_leaves_host :
    samplePlay ∈ sampleStore.plays ∧ samplePlay.playbook = 1 ∧
    sampleHost.play = samplePlay.id ∧ sampleHost ∈ sampleStore.hosts ∧
    sampleHost ∈ (deletePlaybook sampleStore 1).hosts := by
  decide

/-- C6 (amended): deleting a Playbook deletes, by cascade, every Record and
every Play whose playbook reference is that Playbook, and transitively every
Task of those Plays and every Result of those Tasks; Host rows are not
deleted (`Host.play` is `DO_NOTHING`), so the hosts table is unchanged. -/
theorem deletePlaybook_cascade (s : Store) (pid : Nat) :
    (∀ r ∈ (deletePlaybook s pid).records, r.playbook ≠ pid) ∧
    (∀ pl ∈ (deletePlaybook s pid).plays, pl.playbook ≠ pid) ∧
    (∀ t ∈ (deletePlaybook s pid).tasks, ∀ pl ∈ s.plays,
        pl.playbook = pid → t.play ≠ pl.id) ∧
    (∀ r ∈ (deletePlaybook s pid).results, ∀ t ∈ s.tasks, ∀ pl ∈ s.plays,
        pl.playbook = pid → t.play = pl.id → r.task ≠ t.id) ∧
    (deletePlaybook s pid).hosts = s.hosts := by
  refine ⟨?_, ?_, ?_, ?_, rfl⟩
  · intro r hr
    exact bne_iff_ne.mp (List.mem_filter.mp hr).2
  · intro pl hpl
    exact bne_iff_ne.mp (List.mem_filter.mp hpl).2
  · intro t ht pl hpl hpb heq
    have h2 := (List.mem_filter.mp ht).2
    rw [heq] at h2
    have hmem : pl.id ∈ (s.plays.filter (fun x => x.playbook == pid)).map (fun x => x.id) :=
      List.mem_map.mpr ⟨pl, List.mem_filter.mpr ⟨hpl, by simp [hpb]⟩, rfl⟩
    simp [hmem] at h2
  · intro r hr t ht pl hpl hpb htp heq
    have h2 := (List.mem_filter.mp hr).2
    rw [heq] at h2
    have hplmem : pl.id ∈ (s.plays.filter (fun x => x.playbook == pid)).map (fun x => x.id) :=
      List.mem_map.mpr ⟨pl, List.mem_filter.mpr ⟨hpl, by simp [hpb]⟩, rfl⟩
    have htmem : t.id ∈ (s.tasks.filter (fun x =>
        ((s.plays.filter (fun y => y.playbook == pid)).map (fun y => y.id)).contains x.play)).map
        (fun x => x.id) :=
      List.mem_map.mpr ⟨t, List.mem_filter.mpr ⟨ht, by simp [htp, hplmem]⟩, rfl⟩
    simp [htmem] at h2
    exact h2 t ht pl hpl hpb htp.symm rfl

/-- Witness for C6 (amended): evaluated on the sample store, the hosts table
survives a playbook delete and the playbook's record row is gone. -/
theorem deletePlaybook_cascade_witness :
    (deletePlaybook sampleStore 1).hosts = sampleStore.hosts ∧
    sampleRecord ∉ (deletePlaybook sampleStore 1).records := by
  have h := deletePlaybook_cascade sampleStore 1
  exact ⟨h.2.2.2.2, fun hmem => (h.1 sampleRecord hmem) rfl⟩

/-! ## C7: deleting a Play leaves Hosts untouched -/

/-- C7: deleting a Play does not delete any Host: the hosts table is exactly
unchanged by `deletePlay`, even for hosts whose play reference pointed at
the deleted play (`Host.play` is `on_delete=DO_NOTHING` in `models.py`). -/
theorem deletePlay_preserves_hosts (s : Store) (plid : Nat) :
    (deletePlay s plid).hosts = s.hosts := rfl

/-! ## C5: the local and remote clients are equivalent -/

/-- The playbook ids surviving a playbook delete are the previous ids other
than the deleted one. -/
theorem mem_ids_deletePlaybook (s : Store) (pid j : Nat) :
    j ∈ (deletePlaybook s pid).playbooks.map (fun p => p.id) ↔
      j ∈ s.playbooks.map (fun p => p.id) ∧ j ≠ pid := by
  constructor
  · intro hj
    obtain ⟨p, hp, hpj⟩ := List.mem_map.mp hj
    obtain ⟨hpm, hpne⟩ := List.mem_filter.mp hp
    exact ⟨List.mem_map.mpr ⟨p, hpm, hpj⟩, by rw [← hpj]; exact bne_iff_ne.mp hpne⟩
  · intro hj
    obtain ⟨p, hp, hpj⟩ := List.mem_map.mp hj.1
    exact List.mem_map.mpr
      ⟨p, List.mem_filter.mpr ⟨hp, bne_iff_ne.mpr (by rw [hpj]; exact hj.2)⟩, hpj⟩

/-- On distinct ids all present in the server's store, and with write
authentication passing, the HTTP deletion sweep succeeds and tracks the
offline sweep store-for-store and count-for-count. -/
theorem deleteAll_http (creds : Option (String × String)) (ids : List Nat) :
    ∀ srv : Server,
      (srv.write_login_required && !(credentialsAccepted srv creds)) = false →
      ids.Nodup →
      (∀ j ∈ ids, j ∈ srv.store.playbooks.map (fun p => p.id)) →
      ∃ s' : Store, deleteAll offlineClient srv.store ids = .ok (s', ids.length) ∧
        deleteAll (httpClient creds) srv ids = .ok ({ srv with store := s' }, ids.length) := by
  induction ids with
  | nil =>
    intro srv _ _ _
    exact ⟨srv.store, rfl, rfl⟩
  | cons pid rest ih =>
    intro srv hw hnd hsub
    have hpid := hsub pid (List.mem_cons_self pid rest)
    have hany : srv.store.playbooks.any (fun p => p.id == pid) = true := by
      rw [List.any_eq_true]
      obtain ⟨p, hp, hpe⟩ := List.mem_map.mp hpid
      exact ⟨p, hp, by simp [hpe]⟩
    have hdel : httpDelete creds srv pid =
        .ok { srv with store := deletePlaybook srv.store pid } := by
      simp [httpDelete, hw, hany]
    have hw2 : (({ srv with store := deletePlaybook srv.store pid } :
        Server).write_login_required &&
        !(credentialsAccepted { srv with store := deletePlaybook srv.store pid } creds)) =
        false := hw
    have hnd2 := (List.nodup_cons.mp hnd).2
    have hpid_notin := (List.nodup_cons.mp hnd).1
    have hsub2 : ∀ j ∈ rest,
        j ∈ ({ srv with store := deletePlaybook srv.store pid } :
          Server).store.playbooks.map (fun p => p.id) := by
      intro j hj
      have hjm := hsub j (List.mem_cons_of_mem pid hj)
      have hjne : j ≠ pid := fun hcon => hpid_notin (hcon ▸ hj)
      exact (mem_ids_deletePlaybook srv.store pid j).mpr ⟨hjm, hjne⟩
    obtain ⟨s', hoff, hhtp⟩ := ih { srv with store := deletePlaybook srv.store pid } hw2 hnd2 hsub2
    have hoff2 : deleteAll offlineClient (deletePlaybook srv.store pid) rest =
        .ok (s', rest.length) := hoff
    have hhtp2 : deleteAll (httpClient creds) { srv with store := deletePlaybook srv.store pid }
        rest = .ok ({ srv with store := s' }, rest.length) := hhtp
    refine ⟨s', ?_, ?_⟩
    · rw [deleteAll]
      rw [show offlineClient.delete srv.store pid =
        Except.ok (deletePlaybook srv.store pid) from rfl]
      simp only [hoff2, List.length_cons]
    · rw [deleteAll]
      rw [show (httpClient creds).delete srv pid =
        Except.ok { srv with store := deletePlaybook srv.store pid } from hdel]
      simp only [hhtp2, List.length_cons]

/-- C5: for the same store, the same threshold and the same invocation time,
with the remote authentication passing, the offline client and the HTTP
client both succeed and produce identical match counts, identical delete
counts, and the same resulting store. -/
theorem offline_http_clients_equivalent (srv : Server) (creds : Option (String × String))
    (confirm : Bool) (days : Nat) (now : Int)
    (hr : (srv.read_login_required && !(credentialsAccepted srv creds)) = false)
    (hw : (srv.write_login_required && !(credentialsAccepted srv creds)) = false)
    (hnd : playbookIdsNodup srv.store) :
    ∃ (s' : Store) (srv' : Server) (rep rep' : PruneReport),
      prune offlineClient confirm days now srv.store = .ok (s', rep) ∧
      prune (httpClient creds) confirm days now srv = .ok (srv', rep') ∧
      rep'.found = rep.found ∧ rep'.deleted = rep.deleted ∧ srv'.store = s' := by
  have hlist : (httpClient creds).list srv (now - (days : Int) * secondsPerDay) =
      .ok (playbooksOlderThan srv.store (now - (days : Int) * secondsPerDay)) := by
    simp [httpClient, httpList, hr]
  cases confirm with
  | false =>
    exact ⟨srv.store, srv, _, _,
      prune_eq_of_list_ok_dry offlineClient days now srv.store _ rfl,
      prune_eq_of_list_ok_dry (httpClient creds) days now srv _ hlist, rfl, rfl, rfl⟩
  | true =>
    have hidnd : ((playbooksOlderThan srv.store
        (now - (days : Int) * secondsPerDay)).map (fun p => p.id)).Nodup := by
      refine List.Nodup.sublist (List.Sublist.map _ (List.filter_sublist _)) hnd
    have hidsub : ∀ j ∈ ((playbooksOlderThan srv.store
        (now - (days : Int) * secondsPerDay)).map (fun p => p.id)),
        j ∈ srv.store.playbooks.map (fun p => p.id) := by
      intro j hj
      obtain ⟨p, hp, hpe⟩ := List.mem_map.mp hj
      exact List.mem_map.mpr ⟨p, (List.mem_filter.mp hp).1, hpe⟩
    obtain ⟨s', hoff, hhtp⟩ := deleteAll_http creds
      ((playbooksOlderThan srv.store (now - (days : Int) * secondsPerDay)).map (fun p => p.id))
      srv hw hidnd hidsub
    rw [List.length_map] at hoff hhtp
    exact ⟨s', { srv with store := s' }, _, _,
      prune_eq_of_list_ok_confirm offlineClient days now srv.store s' _ _ rfl hoff,
      prune_eq_of_list_ok_confirm (httpClient creds) days now srv { srv with store := s' }
        _ _ hlist hhtp, rfl, rfl, rfl⟩

/-- Witness for C5: the locked server with the correct credentials, a 60-day
threshold at time 0, over the sample prune store. -/
theorem offline_http_clients_equivalent_witness :
    (lockedServer.read_login_required &&
      !(credentialsAccepted lockedServer (some ("prune", "password")))) = false ∧
    ∃ (s' : Store) (srv' : Server) (rep rep' : PruneReport),
      prune offlineClient true 60 0 lockedServer.store = .ok (s', rep) ∧
      prune (httpClient (some ("prune", "password"))) true 60 0 lockedServer = .ok (srv', rep') ∧
      rep'.found = rep.found ∧ rep'.deleted = rep.deleted ∧ srv'.store = s' :=
  ⟨by decide,
   offline_http_clients_equivalent lockedServer (some ("prune", "password")) true 60 0
     (by decide) (by decide) (by unfold playbookIdsNodup; decide)⟩

/-! ## C8: (key, playbook) uniqueness of records -/

/-- Overwriting never changes a row's key. -/
theorem overwriteRecord_key (r x : Record) : (overwriteRecord r x).key = x.key := by
  unfold overwriteRecord
  split <;> rfl

/-- Overwriting never changes a row's playbook reference. -/
theorem overwriteRecord_playbook (r x : Record) :
    (overwriteRecord r x).playbook = x.playbook := by
  unfold overwriteRecord
  split <;> rfl

/-- A pairwise-related list in which no two members may actually be related
has at most one element. -/
theorem length_le_one_of_pairwise_not {α : Type} {R : α → α → Prop} {l : List α}
    (hp : l.Pairwise R) (h : ∀ a ∈ l, ∀ b ∈ l, ¬ R a b) : l.length ≤ 1 := by
  match l with
  | [] => simp
  | [a] => simp
  | a :: b :: t =>
    exact absurd ((List.pairwise_cons.mp hp).1 b (List.mem_cons_self b t))
      (h a (List.mem_cons_self a (b :: t)) b (List.mem_cons_of_mem a (List.mem_cons_self b t)))

/-- C8: under the (key, playbook) uniqueness invariant, re-recording a key
keeps the invariant, leaves exactly one row with that (key, playbook) pair
(never two), and every row carrying the pair now holds the new value: the
write overwrote rather than duplicated. -/
theorem saveRecord_unique (s : Store) (r : Record) (h : recordsUnique s) :
    recordsUnique (saveRecord s r) ∧
    countRecords (saveRecord s r) r.key r.playbook = 1 ∧
    ∀ x ∈ (saveRecord s r).records, x.key = r.key → x.playbook = r.playbook →
      x.value = r.value := by
  unfold recordsUnique countRecords saveRecord
  unfold recordsUnique at h
  by_cases hex : s.records.any (fun x => x.key == r.key && x.playbook == r.playbook) = true
  · rw [if_pos hex]
    refine ⟨?_, ?_, ?_⟩
    · show (s.records.map (overwriteRecord r)).Pairwise _
      rw [List.pairwise_map]
      refine h.imp ?_
      intro a b hab
      rw [overwriteRecord_key, overwriteRecord_key,
        overwriteRecord_playbook, overwriteRecord_playbook]
      exact hab
    · show ((s.records.map (overwriteRecord r)).filter _).length = 1
      rw [List.filter_map]
      rw [List.length_map]
      have hcong : s.records.filter
          ((fun x => x.key == r.key && x.playbook == r.playbook) ∘ overwriteRecord r) =
          s.records.filter (fun x => x.key == r.key && x.playbook == r.playbook) := by
        refine List.filter_congr ?_
        intro x _
        show ((overwriteRecord r x).key == r.key && (overwriteRecord r x).playbook == r.playbook)
          = _
        rw [overwriteRecord_key, overwriteRecord_playbook]
      rw [hcong]
      have hone : 0 < (s.records.filter
          (fun x => x.key == r.key && x.playbook == r.playbook)).length := by
        obtain ⟨x, hx, hpx⟩ := List.any_eq_true.mp hex
        exact List.length_pos.mpr (List.ne_nil_of_mem (List.mem_filter.mpr ⟨hx, hpx⟩))
      have hle : (s.records.filter
          (fun x => x.key == r.key && x.playbook == r.playbook)).length ≤ 1 := by
        refine length_le_one_of_pairwise_not
          (List.Pairwise.sublist (List.filter_sublist _) h) ?_
        intro a ha b hb hR
        have hpa := (List.mem_filter.mp ha).2
        have hpb := (List.mem_filter.mp hb).2
        simp only [Bool.and_eq_true, beq_iff_eq] at hpa hpb
        rcases hR with hk | hp
        · exact hk (hpa.1.trans hpb.1.symm)
        · exact hp (hpa.2.trans hpb.2.symm)
      omega
    · intro x hx hxk hxp
      obtain ⟨y, hy, hgy⟩ := List.mem_map.mp hx
      by_cases hpy : (y.key == r.key && y.playbook == r.playbook) = true
      · rw [← hgy]
        unfold overwriteRecord
        rw [if_pos hpy]
      · exfalso
        apply hpy
        have hyk : y.key = x.key := (overwriteRecord_key r y).symm.trans (by rw [hgy])
        have hyp : y.playbook = x.playbook :=
          (overwriteRecord_playbook r y).symm.trans (by rw [hgy])
        simp [hyk, hyp, hxk, hxp]
  · rw [if_neg hex]
    have hall : ∀ x ∈ s.records, ¬(x.key = r.key ∧ x.playbook = r.playbook) := by
      intro x hx hcon
      exact hex (List.any_eq_true.mpr ⟨x, hx, by simp [hcon.1, hcon.2]⟩)
    refine ⟨?_, ?_, ?_⟩
    · show (s.records ++ [r]).Pairwise _
      rw [List.pairwise_append]
      refine ⟨h, List.pairwise_singleton _ _, ?_⟩
      intro a ha b hb
      rw [List.mem_singleton] at hb
      subst hb
      rcases Decidable.em (a.key = b.key) with hk | hk
      · exact Or.inr (fun hp => hall a ha ⟨hk, hp⟩)
      · exact Or.inl hk
    · show ((s.records ++ [r]).filter _).length = 1
      rw [List.filter_append]
      have h1 : s.records.filter (fun x => x.key == r.key && x.playbook == r.playbook) = [] := by
        rw [List.filter_eq_nil_iff]
        intro x hx
        simp only [Bool.and_eq_true, beq_iff_eq, not_and]
        intro hk hp
        exact hall x hx ⟨hk, hp⟩
      have h2 : [r].filter (fun x => x.key == r.key && x.playbook == r.playbook) = [r] := by
        simp
      rw [h1, h2]
      rfl
    · intro x hx hxk hxp
      rcases List.mem_append.mp hx with hxl | hxr
      · exact absurd ⟨hxk, hxp⟩ (hall x hxl)
      · rw [List.mem_singleton] at hxr
        rw [hxr]

/-- Witness for C8: re-recording key "k" of playbook 1 with a new value in
the one-record store leaves exactly one row for the pair. -/
theorem saveRecord_unique_witness :
    countRecords (saveRecord recordStore sampleRecord2) sampleRecord2.key
      sampleRecord2.playbook = 1 :=
  (saveRecord_unique recordStore sampleRecord2
    (by unfold recordsUnique; simp [recordStore, Store.empty])).2.1

/-! ## C9: every stored Result status lies in the fixed enumeration -/

/-- C9: the enumeration is exactly {ok, failed, skipped, unreachable,
changed, ignored, unknown}, and a validated write preserves the invariant
that every stored Result row's status lies in it: no row with a status
outside the set is ever stored. -/
theorem addResult_status_in_enum (s : Store) (r : Result) (s2 : Store)
    (hadd : addResult s r = some s2)
    (hinv : ∀ x ∈ s.results, x.status ∈ statusChoices) :
    (∀ x ∈ s2.results, x.status ∈ statusChoices) ∧
    statusChoices = ["ok", "failed", "skipped", "unreachable", "changed", "ignored", "unknown"] := by
  refine ⟨?_, rfl⟩
  unfold addResult at hadd
  by_cases hc : statusChoices.contains r.status = true
  · rw [if_pos hc] at hadd
    obtain rfl : ({ s with results := s.results ++ [r] } : Store) = s2 :=
      Option.some_injective _ hadd
    intro x hx
    rcases List.mem_append.mp hx with hxl | hxr
    · exact hinv x hxl
    · rw [List.mem_singleton] at hxr
      rw [hxr]
      exact List.contains_iff_exists_mem_beq.mp hc |>.elim
        (fun y hy => (eq_of_beq hy.2) ▸ hy.1)
  · rw [if_neg hc] at hadd
    exact absurd hadd (by simp)

/-- Witness for C9: adding the sample result (status "ok") to the empty
store succeeds and every stored status is in the enumeration. -/
theorem addResult_status_in_enum_witness :
    sampleResult.status ∈ statusChoices :=
  (addResult_status_in_enum Store.empty sampleResult
    { Store.empty with results := [sampleResult] } (by decide)
    (fun x hx => absurd hx (by simp [Store.empty]))).1
    sampleResult (by simp [Store.empty])

/-! ## C10: duration defaults at creation -/

/-- C10: each entity with a duration window created without an explicit
`started` receives the creation time as `started` and no `ended`; a
playbook created this way matches no positive prune age threshold at the
moment of its creation. -/
theorem duration_creation_defaults (now : Int) (i : Nat) (v par : String) (f : Nat)
    (nm : Option String) (pb : Nat) (act : String) (ln : Int) (tg : String)
    (hd : Bool) (pl : Nat) (ct : String) (ho tk : Nat)
    (days : Nat) (hdays : 0 < days) (s : Store) :
    (newPlaybook now none i v par f).started = now ∧
    (newPlaybook now none i v par f).ended = none ∧
    (newPlay now none i nm pb).started = now ∧
    (newPlay now none i nm pb).ended = none ∧
    (newTask now none i nm act ln tg hd pl f).started = now ∧
    (newTask now none i nm act ln tg hd pl f).ended = none ∧
    (newResult now none i none ct ho tk).started = now ∧
    (newResult now none i none ct ho tk).ended = none ∧
    newPlaybook now none i v par f ∉
      playbooksOlderThan s (now - (days : Int) * secondsPerDay) := by
  refine ⟨rfl, rfl, rfl, rfl, rfl, rfl, rfl, rfl, ?_⟩
  intro hmem
  have hlt := of_decide_eq_true (List.mem_filter.mp hmem).2
  have hstart : (newPlaybook now none i v par f).started = now := rfl
  rw [hstart] at hlt
  have hpos : (0 : Int) < (days : Int) * secondsPerDay := by
    have h1 : (0 : Int) < (days : Int) := Int.natCast_pos.mpr hdays
    have h2 : (0 : Int) < secondsPerDay := by norm_num [secondsPerDay]
    exact mul_pos h1 h2
  linarith

/-- Witness for C10: at time 0 with a 1-day threshold, a fresh playbook in
the sample store does not match. -/
theorem duration_creation_defaults_witness :
    (newPlaybook 0 none 3 "2.8" "args" 0).started = 0 ∧
    (newPlaybook 0 none 3 "2.8" "args" 0).ended = none ∧
    newPlaybook 0 none 3 "2.8" "args" 0 ∉ playbooksOlderThan sampleStore
      (0 - (1 : Int) * secondsPerDay) := by
  have h := duration_creation_defaults 0 3 "2.8" "args" 0 none 0 "setup" 0 "" false 0 "c" 0 0
    1 (by decide) sampleStore
  exact ⟨h.1, h.2.1, h.2.2.2.2.2.2.2.2⟩

end Ara
